import Mathlib

/-!
# Verification of the twitter-curator decision and reconciliation engine

Shallow embedding of the curation engine of this repository:
the relevance-scoring adapter (`src/claude_filter.py`), the orchestrator's
dedup / tiering / shadow-scoring passes (`src/scheduler.py`), the author
tier store operations (`src/database.py`), the weighted author-stats
aggregator, and the delayed-commit feedback state machine
(`src/telegram_bot.py`).  Python dictionaries are modelled as association
lists or `Option`-valued lookups, in-place mutation as explicit state
passing, and the external network calls (Twitter, Anthropic, Telegram,
Supabase) as oracle inputs to the pure logic around them.
-/

namespace TwitterCurator

/-! ## String normalization (`src/database.py`)

Every tier-set operation starts with `username.lower().lstrip("@")`.
`pyCharLower` models `str.lower` on the ASCII range (author handles are
ASCII); `pyLstripAt` models `lstrip("@")`, which removes *all* leading
`@` characters. -/

/-- Model of Python `str.lower` on a single character (ASCII range). -/
def pyCharLower (c : Char) : Char :=
  if 65 ≤ c.toNat ∧ c.toNat ≤ 90 then Char.ofNat (c.toNat + 32) else c

/-- Model of Python `str.lower` (ASCII range). -/
def pyLower (s : String) : String := ⟨s.data.map pyCharLower⟩

/-- Model of Python `str.lstrip("@")`: drop every leading `@`. -/
def pyLstripAt (s : String) : String := ⟨s.data.dropWhile (· = '@')⟩

/-- The handle normalization `username.lower().lstrip("@")` performed by
every tier-set operation in `src/database.py`. -/
def normalizeHandle (s : String) : String := pyLstripAt (pyLower s)

/-! ## Author tier store (`src/database.py`)

The `favorite_authors` and `muted_authors` tables each hold username rows
under a unique constraint on `username`; `upsert(..., on_conflict="username")`
inserts a row unless one with the same username exists, and
`delete().eq("username", u)` removes every row with that username. -/

/-- The two author-handle tables of the store. -/
structure TierState where
  favorite_authors : List String
  muted_authors : List String
deriving DecidableEq, Repr

/-- Row upsert under the unique `username` constraint. -/
def upsertUsername (u : String) (t : List String) : List String :=
  if u ∈ t then t else t ++ [u]

/-- `delete().eq("username", u)`. -/
def deleteUsername (u : String) (t : List String) : List String :=
  t.filter (fun v => v ≠ u)

/-- `DatabaseClient.save_favorite_author`. -/
def save_favorite_author (u : String) (s : TierState) : TierState :=
  let u := normalizeHandle u
  { s with favorite_authors := upsertUsername u s.favorite_authors }

/-- `DatabaseClient.is_favorite_author`. -/
def is_favorite_author (u : String) (s : TierState) : Bool :=
  normalizeHandle u ∈ s.favorite_authors

/-- `DatabaseClient.remove_favorite_author`. -/
def remove_favorite_author (u : String) (s : TierState) : TierState :=
  let u := normalizeHandle u
  { s with favorite_authors := deleteUsername u s.favorite_authors }

/-- `DatabaseClient.save_muted_author`. -/
def save_muted_author (u : String) (s : TierState) : TierState :=
  let u := normalizeHandle u
  { s with muted_authors := upsertUsername u s.muted_authors }

/-- `DatabaseClient.is_muted_author`. -/
def is_muted_author (u : String) (s : TierState) : Bool :=
  normalizeHandle u ∈ s.muted_authors

/-- `DatabaseClient.remove_muted_author`. -/
def remove_muted_author (u : String) (s : TierState) : TierState :=
  let u := normalizeHandle u
  { s with muted_authors := deleteUsername u s.muted_authors }

/-- `DatabaseClient.toggle_favorite`: returns the reported state string
together with the updated store. -/
def toggle_favorite (u : String) (s : TierState) : String × TierState :=
  let u := normalizeHandle u
  if is_muted_author u s then ("unmuted", remove_muted_author u s)
  else ("favorited", save_favorite_author u s)

/-- `DatabaseClient.toggle_mute`. -/
def toggle_mute (u : String) (s : TierState) : String × TierState :=
  let u := normalizeHandle u
  if is_favorite_author u s then ("unfavorited", remove_favorite_author u s)
  else ("muted", save_muted_author u s)

/-- Every handle stored in the two tier tables is already normalized
(lowercase, no leading `@`). -/
def TierStateNormalized (s : TierState) : Prop :=
  (∀ h ∈ s.favorite_authors, normalizeHandle h = h) ∧
  (∀ h ∈ s.muted_authors, normalizeHandle h = h)

/-! ## Tweets and score results (`src/claude_filter.py`)

A tweet is carried through the pipeline as a dictionary; the fields the
engine reads or writes are modelled explicitly, with `Option` for fields
that may be absent (`filter_score`, `filter_reason`). -/

/-- The tweet dictionary as the decision engine sees it. -/
structure Tweet where
  tweet_id : String
  author_username : String
  text : String
  is_retweet : Bool := false
  filter_score : Option Int := none
  filter_reason : Option String := none
  filtered : Bool := false
deriving DecidableEq, Repr

/-- One validated `{tweet_id, score, reason}` record from the scorer. -/
structure ScoreRec where
  tweet_id : String
  score : Int
  reason : String
deriving DecidableEq, Repr

/-- The dictionary comprehension `{s["tweet_id"]: s for s in scores}` of
`ClaudeFilter.filter_tweets`: the last record with a given id wins. -/
def scoreMapLookup (scores : List ScoreRec) (id : String) : Option ScoreRec :=
  scores.reverse.find? (fun s => s.tweet_id == id)

/-- One iteration of the score-mapping loop of
`ClaudeFilter.filter_tweets`: the in-place enrichment of a tweet from the
parsed score set at the floor threshold. -/
def annotateTweet (threshold : Int) (scores : List ScoreRec) (t : Tweet) : Tweet :=
  match scoreMapLookup scores t.tweet_id with
  | some s =>
      { t with filter_score := some s.score, filter_reason := some s.reason,
               filtered := decide (s.score ≥ threshold) }
  | none =>
      { t with filter_score := some 0, filter_reason := some "Not scored by Claude",
               filtered := false }

/-- The score-mapping loop of `ClaudeFilter.filter_tweets` after the
external call has produced the parsed score set `scores`: returns the
enriched tweet list (the in-place mutations) together with the list the
method returns (`filtered_tweets`). -/
def filter_tweets_apply (threshold : Int) (scores : List ScoreRec) :
    List Tweet → List Tweet × List Tweet
  | [] => ([], [])
  | t :: ts =>
      let rest := filter_tweets_apply threshold scores ts
      match scoreMapLookup scores t.tweet_id with
      | some s =>
          let t := { t with filter_score := some s.score, filter_reason := some s.reason,
                            filtered := decide (s.score ≥ threshold) }
          (t :: rest.1, if t.filtered then t :: rest.2 else rest.2)
      | none =>
          let t := { t with filter_score := some 0,
                            filter_reason := some "Not scored by Claude",
                            filtered := false }
          (t :: rest.1, rest.2)

/-! ## Orchestrator passes (`src/scheduler.py`) -/

/-- `DailyCurator._deduplicate_tweets`: the store is modelled as the
`get_tweet_by_id` lookup. A tweet is kept when no record exists or the
record carries no `filter_score`. -/
def deduplicate_tweets (db : String → Option Tweet) : List Tweet → List Tweet
  | [] => []
  | t :: ts =>
      let rest := deduplicate_tweets db ts
      match db t.tweet_id with
      | some existing => if existing.filter_score.isSome then rest else t :: rest
      | none => t :: rest

/-- Whether `_deduplicate_tweets` keeps a tweet. -/
def dedupKeeps (db : String → Option Tweet) (t : Tweet) : Bool :=
  match db t.tweet_id with
  | some existing => !existing.filter_score.isSome
  | none => true

/-- The per-tier counters accumulated in step 2b of
`DailyCurator.run_daily_curation`. -/
structure TierCounts where
  favorite : Nat
  muted : Nat
  default : Nat
deriving DecidableEq, Repr

/-- The threshold resolved for a tweet's author in step 2b: muted is
checked first, then favorite, else default. The author handle is
lowercased (`tweet["author_username"].lower()`) before the set lookups. -/
def tierThreshold (favT defT mutT : Int) (favs muted : List String)
    (author_username : String) : Int :=
  let author := pyLower author_username
  if author ∈ muted then mutT
  else if author ∈ favs then favT
  else defT

/-- Step 2b of `DailyCurator.run_daily_curation`: the per-author tiered
decision pass over the scored batch. Returns the passing tweets (in input
order, with their `filtered` flag rewritten) and the tier breakdown. -/
def tieredDecision (favT defT mutT : Int) (favs muted : List String) :
    List Tweet → List Tweet × TierCounts
  | [] => ([], ⟨0, 0, 0⟩)
  | t :: ts =>
      let rest := tieredDecision favT defT mutT favs muted ts
      let author := pyLower t.author_username
      let score := t.filter_score.getD 0
      let counts := rest.2
      let counts :=
        if author ∈ muted then { counts with muted := counts.muted + 1 }
        else if author ∈ favs then { counts with favorite := counts.favorite + 1 }
        else { counts with default := counts.default + 1 }
      let threshold := tierThreshold favT defT mutT favs muted t.author_username
      let passed := decide (score ≥ threshold)
      let t := { t with filtered := passed }
      (if passed then t :: rest.1 else rest.1, counts)

/-! ## A/B shadow scoring (step 2a of `DailyCurator.run_daily_curation`)

The external challenger scoring call and the store write are oracle
inputs (`Except` values: `.error` models an exception raised by the call;
`KeyError` on the config dictionary is modelled by the `Option` config
fields). -/

/-- The `ab_test_config` dictionary; `none` fields model missing keys,
whose `[...]` access raises `KeyError` inside the guarded block. -/
structure ABConfig where
  enabled : Bool
  experiment_id : Option String
  challenger_prompt : Option String
deriving DecidableEq, Repr

/-- Run statistics of one curation run (the fields the modelled passes
touch). -/
structure RunStats where
  filtered : Nat := 0
  errors : List String := []
  tier_breakdown : Option TierCounts := none
  ab_test_control_scores : Option Nat := none
  ab_test_challenger_scores : Option Nat := none
  ab_test_error : Option String := none
deriving DecidableEq, Repr

/-- The `control_scores` list built inside the A/B block from the
already-scored batch: one record per tweet whose `filter_score` is set. -/
def buildControlScores (tweets : List Tweet) : List ScoreRec :=
  tweets.filterMap fun t =>
    t.filter_score.map fun sc => ⟨t.tweet_id, sc, t.filter_reason.getD ""⟩

/-- The body of the `try` block of step 2a: config-key access, the
challenger scoring call, the control-score build and the store write, in
source order; any raised exception surfaces as `.error`. -/
def abTry (cfg : ABConfig) (tweetsForFiltering : List Tweet)
    (challengerResult : Except String (List ScoreRec))
    (saveResult : Except String Unit) : Except String (Nat × Nat) := do
  let _expId ← match cfg.experiment_id with
    | some e => Except.ok e
    | none => Except.error "KeyError: experiment_id"
  let _chKey ← match cfg.challenger_prompt with
    | some k => Except.ok k
    | none => Except.error "KeyError: challenger_prompt"
  let chScores ← challengerResult
  let control := buildControlScores tweetsForFiltering
  let _ ← saveResult
  Except.ok (control.length, chScores.length)

/-- Step 2a: the guarded A/B shadow block. On success the two score
counts enter the run statistics; on any exception the message is recorded
as `ab_test_error` and nothing else changes. -/
def abShadowStage (cfg : ABConfig) (tweetsForFiltering : List Tweet)
    (challengerResult : Except String (List ScoreRec))
    (saveResult : Except String Unit) (stats : RunStats) : RunStats :=
  if cfg.enabled then
    match abTry cfg tweetsForFiltering challengerResult saveResult with
    | Except.ok (c, ch) =>
        { stats with ab_test_control_scores := some c,
                     ab_test_challenger_scores := some ch }
    | Except.error e => { stats with ab_test_error := some e }
  else stats

/-- Steps 2a and 2b in sequence: the shadow block followed by the tiered
decision pass, as `run_daily_curation` performs them. -/
def shadowThenDecide (cfg : ABConfig) (favT defT mutT : Int)
    (favs muted : List String) (scoredTweets tweetsForFiltering : List Tweet)
    (challengerResult : Except String (List ScoreRec))
    (saveResult : Except String Unit) (stats : RunStats) :
    RunStats × List Tweet × TierCounts :=
  let stats := abShadowStage cfg tweetsForFiltering challengerResult saveResult stats
  let r := tieredDecision favT defT mutT favs muted scoredTweets
  ({ stats with filtered := r.1.length, tier_breakdown := some r.2 }, r.1, r.2)

/-! ## Weighted author-stats aggregator

`DatabaseClient.get_author_stats` is called from `main.py` (`on_stats`)
and exercised by `tests/test_database.py`, but its implementation is not
among the source files; it is modelled from the spec below. -/

/-- A feedback row joined with its originating tweet's metadata; `none`
for `tweet` is an orphaned vote (unresolvable item). -/
structure FeedbackJoinRow where
  user_vote : String
  tweet : Option Tweet
deriving DecidableEq, Repr

/-- Modelled from the spec: the weighting rule of the Weighted Stats
Aggregator — a vote on an original item counts at weight 1.0, a vote on a
reshare at weight 0.5. -/
def voteWeight (t : Tweet) : ℚ := if t.is_retweet then 1 / 2 else 1

/-- Modelled from the spec: the accumulated weighted up-vote mass of one
author over the vote history (orphaned rows are skipped). -/
def weightedUp (rows : List FeedbackJoinRow) (author : String) : ℚ :=
  (rows.filterMap fun r =>
    r.tweet.bind fun m =>
      if m.author_username = author ∧ r.user_vote = "up" then some (voteWeight m)
      else none).sum

/-- Modelled from the spec: the accumulated weighted down-vote mass of
one author over the vote history. -/
def weightedDown (rows : List FeedbackJoinRow) (author : String) : ℚ :=
  (rows.filterMap fun r =>
    r.tweet.bind fun m =>
      if m.author_username = author ∧ r.user_vote = "down" then some (voteWeight m)
      else none).sum

/-- Modelled from the spec: reputation score = weighted-up divided by
(weighted-up plus weighted-down), defined as 0 when the denominator is 0. -/
def reputationScore (wu wd : ℚ) : ℚ :=
  if wu + wd = 0 then 0 else wu / (wu + wd)

/-- One entry of the on-demand author-stats view. -/
structure AuthorStat where
  author_username : String
  weighted_up : ℚ
  weighted_down : ℚ
  weighted_score : ℚ
deriving DecidableEq, Repr

/-- Modelled from the spec: `DatabaseClient.get_author_stats` (absent
from the source files; only its caller `main.py` and its tests exist).
Reads the full vote history joined with item metadata, skips orphaned
votes, accumulates per-author weighted up/down masses, computes the
reputation score, and returns the entries sorted descending by score. -/
def get_author_stats (rows : List FeedbackJoinRow) : List AuthorStat :=
  (((rows.filterMap fun r => r.tweet.map (·.author_username)).dedup).map fun a =>
    AuthorStat.mk a (weightedUp rows a) (weightedDown rows a)
      (reputationScore (weightedUp rows a) (weightedDown rows a))).insertionSort
    fun x y => x.weighted_score ≥ y.weighted_score

/-! ## Feedback reconciliation state machine (`src/telegram_bot.py`)

`TelegramCurator._handle_feedback` keeps `self._pending_feedback`, a
dictionary keyed by tweet id whose values hold a cancellable
`asyncio` task (the 10-second delayed commit) and the message id. The
machine is modelled as an explicit transition system: tasks get fresh
numeric ids; a cancelled task's body never runs (cancellation lands
during `asyncio.sleep`); the `fire` event is the delay elapsing for a
task. Committed votes are appended through the feedback callback. -/

/-- The closure data captured by a scheduled `_save_after_delay` /
`_save_like_after_delay` task. -/
structure TaskClosure where
  tweetId : String
  vote : String
  reason : String
  messageId : Nat
deriving DecidableEq, Repr

/-- A value of the `_pending_feedback` dictionary. -/
structure PendingEntry where
  taskId : Nat
  messageId : Nat
deriving DecidableEq, Repr

/-- A committed vote (a completed `feedback_callback` invocation). -/
structure VoteRec where
  tweetId : String
  vote : String
  reason : String
  messageId : Nat
deriving DecidableEq, Repr

/-- The reconciliation machine's state: the pending-feedback dictionary
(an association list keyed by tweet id), the closures of the scheduled
tasks, the set of cancelled task ids, the committed votes, and the next
fresh task id. -/
structure BotState where
  pending : List (String × PendingEntry)
  tasks : List (Nat × TaskClosure)
  cancelled : List Nat
  saved : List VoteRec
  nextTask : Nat
deriving DecidableEq, Repr

/-- Dictionary lookup (`d[k]` / `k in d`): first matching key. -/
def dictGet {β : Type} (d : List (String × β)) (k : String) : Option β :=
  (d.find? fun kv => kv.1 == k).map (·.2)

/-- Dictionary assignment `d[k] = v`: replace in place, else append. -/
def dictSet {β : Type} (d : List (String × β)) (k : String) (v : β) :
    List (String × β) :=
  if (d.find? fun kv => kv.1 == k).isSome then
    d.map fun kv => if kv.1 == k then (k, v) else kv
  else d ++ [(k, v)]

/-- Dictionary removal (`del d[k]` / `d.pop(k, None)`). -/
def dictPop {β : Type} (d : List (String × β)) (k : String) :
    List (String × β) :=
  d.filter fun kv => kv.1 ≠ k

/-- The inbound events of the machine. `reasonSelect` is the
`reason:{tweet_id}:{vote}:{code}` callback branch, `likeReasonSelect` the
`like_reason:{tweet_id}:{code}` branch, `undo` the `undo:{tweet_id}` and
`like_undo:{tweet_id}` branches, and `fire` the 10-second delay elapsing
for a scheduled task. -/
inductive BotEvent where
  | reasonSelect (tweetId vote reason : String) (messageId : Nat)
  | likeReasonSelect (tweetId reason : String) (messageId : Nat)
  | undo (tweetId : String)
  | fire (taskId : Nat)
deriving DecidableEq, Repr

/-- The user-visible outcome of one event. -/
inductive BotOutput where
  | scheduled
  | undone
  | tooLate
  | committed
  | noop
deriving DecidableEq, Repr

/-- Schedule a pending vote for `tweetId`: cancel any existing pending
task for the same id, then store the fresh task and the new pending
entry (the shared body of the `reason:` and `like_reason:` branches). -/
def scheduleVote (s : BotState) (tweetId vote reason : String)
    (messageId : Nat) : BotState × BotOutput :=
  let cancelled :=
    match dictGet s.pending tweetId with
    | some e => e.taskId :: s.cancelled
    | none => s.cancelled
  let tid := s.nextTask
  ({ s with
      pending := dictSet s.pending tweetId ⟨tid, messageId⟩,
      tasks := s.tasks ++ [(tid, ⟨tweetId, vote, reason, messageId⟩)],
      cancelled := cancelled,
      nextTask := tid + 1 }, BotOutput.scheduled)

/-- One transition of the feedback machine. -/
def botStep (s : BotState) : BotEvent → BotState × BotOutput
  | BotEvent.reasonSelect tweetId vote reason messageId =>
      scheduleVote s tweetId vote reason messageId
  | BotEvent.likeReasonSelect tweetId reason messageId =>
      scheduleVote s tweetId "up" reason messageId
  | BotEvent.undo tweetId =>
      match dictGet s.pending tweetId with
      | none => (s, BotOutput.tooLate)
      | some e =>
          ({ s with cancelled := e.taskId :: s.cancelled,
                    pending := dictPop s.pending tweetId }, BotOutput.undone)
  | BotEvent.fire taskId =>
      if taskId ∈ s.cancelled then (s, BotOutput.noop)
      else
        match (s.tasks.find? fun kv => kv.1 == taskId).map (·.2) with
        | none => (s, BotOutput.noop)
        | some cl =>
            if (dictGet s.pending cl.tweetId).isSome then
              ({ s with saved := s.saved ++ [⟨cl.tweetId, cl.vote, cl.reason, cl.messageId⟩],
                        pending := dictPop s.pending cl.tweetId }, BotOutput.committed)
            else (s, BotOutput.noop)

/-! ## Scorer response parsing (`ClaudeFilter._parse_response` /
`ClaudeFilter._fallback_parse`)

The decoded value of `json.loads` is modelled by `PyJson` (numbers
restricted to integers — the domain of the scores handled by the code).
`loads : String → Option PyJson` is an oracle standing for `json.loads`:
`none` models a raised `json.JSONDecodeError`. Exceptions that the
validation loop itself raises (`TypeError`, `ValueError` from `int(...)`
or from iterating a non-iterable) surface as `Except.error`, since the
surrounding `try` only catches `json.JSONDecodeError`. -/

/-- An exception escaping the validation loop. -/
inductive PyErr where
  | typeError
  | valueError
deriving DecidableEq, Repr

/-- A decoded JSON value (integer numbers only). -/
inductive PyJson where
  | null
  | bool (b : Bool)
  | num (n : Int)
  | str (s : String)
  | arr (items : List PyJson)
  | obj (fields : List (String × PyJson))

/-- ASCII whitespace (`str.strip`, `\s` — ASCII range). -/
def isAsciiWs (c : Char) : Bool :=
  decide (c.toNat = 32 ∨ (9 ≤ c.toNat ∧ c.toNat ≤ 13))

/-- Dictionary lookup on a decoded JSON object. -/
def objGet (fields : List (String × PyJson)) (k : String) : Option PyJson :=
  (fields.reverse.find? fun kv => kv.1 == k).map (·.2)

/-- `dict.get(k, default)`. -/
def objGetD (fields : List (String × PyJson)) (k : String) (d : PyJson) : PyJson :=
  (objGet fields k).getD d

/-- Key membership (`k in item`). -/
def objHas (fields : List (String × PyJson)) (k : String) : Bool :=
  fields.any fun kv => kv.1 == k

/-- Nonempty all-digit run to a number. -/
def digitsToNat (l : List Char) : Option Nat :=
  if l.isEmpty then none
  else l.foldl (fun acc c =>
    acc.bind fun a => if c.isDigit then some (a * 10 + (c.toNat - 48)) else none)
    (some 0)

/-- Model of Python `int(s)` for a string: strip whitespace, optional
sign, decimal digits; anything else raises `ValueError`. -/
def parseIntString (s : String) : Option Int :=
  let l := ((s.data.dropWhile isAsciiWs).reverse.dropWhile isAsciiWs).reverse
  match l with
  | '-' :: rest => (digitsToNat rest).map fun n => -(n : Int)
  | '+' :: rest => (digitsToNat rest).map Int.ofNat
  | rest => (digitsToNat rest).map Int.ofNat

/-- Model of Python `int(x)` on a decoded JSON value: numbers and
booleans convert, numeric strings parse (`ValueError` otherwise), and
`None`/lists/objects raise `TypeError`. -/
def pyIntOfJson : PyJson → Except PyErr Int
  | PyJson.num n => Except.ok n
  | PyJson.bool b => Except.ok (if b then 1 else 0)
  | PyJson.str s =>
      match parseIntString s with
      | some n => Except.ok n
      | none => Except.error PyErr.valueError
  | PyJson.null => Except.error PyErr.typeError
  | PyJson.arr _ => Except.error PyErr.typeError
  | PyJson.obj _ => Except.error PyErr.typeError

mutual

/-- Python `repr` of a decoded JSON value (string escaping inside
reprs is not reproduced; no claim depends on it). -/
def pyRepr : PyJson → String
  | PyJson.null => "None"
  | PyJson.bool b => if b then "True" else "False"
  | PyJson.num n => toString n
  | PyJson.str s => "\x27" ++ s ++ "\x27"
  | PyJson.arr items => "[" ++ pyReprList items ++ "]"
  | PyJson.obj fields => "\x7b" ++ pyReprFields fields ++ "\x7d"

/-- Comma-joined reprs of array elements. -/
def pyReprList : List PyJson → String
  | [] => ""
  | [x] => pyRepr x
  | x :: y :: xs => pyRepr x ++ ", " ++ pyReprList (y :: xs)

/-- Comma-joined `key: value` reprs of object fields. -/
def pyReprFields : List (String × PyJson) → String
  | [] => ""
  | [(k, v)] => "\x27" ++ k ++ "\x27: " ++ pyRepr v
  | (k, v) :: y :: xs =>
      "\x27" ++ k ++ "\x27: " ++ pyRepr v ++ ", " ++ pyReprFields (y :: xs)

end

/-- Python `str(x)` on a decoded JSON value (never raises). -/
def pyStrOfJson : PyJson → String
  | PyJson.str s => s
  | j => pyRepr j

/-- The validation loop of `ClaudeFilter._parse_response` over the items
of a decoded array: non-dict items and dicts missing `tweet_id` or
`score` are skipped; `int(item.get("score", 0))` may raise. -/
def validateItems : List PyJson → Except PyErr (List ScoreRec)
  | [] => Except.ok []
  | item :: rest =>
      match item with
      | PyJson.obj fields =>
          if objHas fields "tweet_id" ∧ objHas fields "score" then
            match pyIntOfJson (objGetD fields "score" (PyJson.num 0)) with
            | Except.error e => Except.error e
            | Except.ok sc =>
                let tid := pyStrOfJson ((objGet fields "tweet_id").getD PyJson.null)
                let reason := pyStrOfJson (objGetD fields "reason"
                  (PyJson.str "No reason provided"))
                (validateItems rest).map fun rs => ScoreRec.mk tid sc reason :: rs
          else validateItems rest
      | _ => validateItems rest

/-- Iterating the decoded top-level value: arrays iterate their items;
dicts iterate their keys and strings their characters (none of which is
a dict, so both validate to the empty list); numbers, booleans and
`None` are not iterable and raise `TypeError`. -/
def validateScores : PyJson → Except PyErr (List ScoreRec)
  | PyJson.arr items => validateItems items
  | PyJson.obj _ => Except.ok []
  | PyJson.str _ => Except.ok []
  | PyJson.num _ => Except.error PyErr.typeError
  | PyJson.bool _ => Except.error PyErr.typeError
  | PyJson.null => Except.error PyErr.typeError

/-- `str.strip()` (ASCII whitespace). -/
def pyStrip (s : String) : String :=
  ⟨((s.data.dropWhile isAsciiWs).reverse.dropWhile isAsciiWs).reverse⟩

/-- Drop a literal prefix, or fail. -/
def dropLit (lit l : List Char) : Option (List Char) :=
  if lit.isPrefixOf l then some (l.drop lit.length) else none

/-- Attempt the fallback pattern
`\x7b"tweet_id":\s*"([^"]+)",\s*"score":\s*(\d+),\s*"reason":\s*"([^"]*)"\x7d`
at the head of `l`; on success return the extracted record and the
remainder after the match. -/
def matchScoreAt (l : List Char) : Option (ScoreRec × List Char) := do
  let l ← dropLit "\x7b\"tweet_id\":".data l
  let l := l.dropWhile isAsciiWs
  let l ← dropLit ['"'] l
  let g1 := l.takeWhile fun c => c ≠ '"'
  if g1.isEmpty then none else do
  let l := l.drop g1.length
  let l ← dropLit ['"', ','] l
  let l := l.dropWhile isAsciiWs
  let l ← dropLit "\"score\":".data l
  let l := l.dropWhile isAsciiWs
  let g2 := l.takeWhile Char.isDigit
  if g2.isEmpty then none else do
  let l := l.drop g2.length
  let l ← dropLit [','] l
  let l := l.dropWhile isAsciiWs
  let l ← dropLit "\"reason\":".data l
  let l := l.dropWhile isAsciiWs
  let l ← dropLit ['"'] l
  let g3 := l.takeWhile fun c => c ≠ '"'
  let l := l.drop g3.length
  let l ← dropLit ['"', '\x7d'] l
  match digitsToNat g2 with
  | none => none
  | some n =>
      some (ScoreRec.mk (String.mk g1) (Int.ofNat n) (String.mk g3), l)

/-- `re.findall` of the fallback pattern: scan left to right, emit each
non-overlapping match, resume after it. `fuel` bounds the recursion (one
unit per inspected position suffices). -/
def fallbackScan : Nat → List Char → List ScoreRec
  | 0, _ => []
  | _, [] => []
  | fuel + 1, l =>
      match matchScoreAt l with
      | some (r, rest) => r :: fallbackScan fuel rest
      | none => fallbackScan fuel l.tail

/-- `ClaudeFilter._fallback_parse`: the permissive pattern scan over the
raw response text. -/
def fallback_parse (response_text : String) : List ScoreRec :=
  fallbackScan (response_text.data.length + 1) response_text.data

/-- `ClaudeFilter._parse_response`. `loads` is the `json.loads` oracle
(`none` = `json.JSONDecodeError`). The raw text is stripped, a leading
code fence removed (drop the first and last line), then decoded; decode
failure falls back to the pattern scan over the *raw* text; a decoded
value goes through the validation loop, whose own exceptions are not
caught. -/
def parse_response (loads : String → Option PyJson) (response_text : String) :
    Except PyErr (List ScoreRec) :=
  let text := pyStrip response_text
  let text :=
    if "```".data.isPrefixOf text.data then
      String.intercalate "\n" (((text.splitOn "\n").drop 1).dropLast)
    else text
  match loads text with
  | some j => validateScores j
  | none => Except.ok (fallback_parse response_text)

/-- Models `json.loads` at the single input `"5"`: Python decodes the
text `5` to the integer `5` (a valid top-level JSON value). Every other
input is treated as a decode failure (irrelevant to the evaluated
input). -/
def loadsFive : String → Option PyJson :=
  fun s => if s = "5" then some (PyJson.num 5) else none

/-! ## Supporting lemmas -/

theorem toNat_charOfNat (n : Nat) (h : n < 55296) : (Char.ofNat n).toNat = n := by
  have hv : n.isValidChar := Or.inl h
  simp only [Char.ofNat, dif_pos hv, Char.ofNatAux, Char.toNat]
  simp only [UInt32.toNat]
  simp [BitVec.toNat_ofNatLt]

/-- A character produced by `pyCharLower` is never an ASCII uppercase
letter, so lowering is idempotent. -/
theorem pyCharLower_idem (c : Char) : pyCharLower (pyCharLower c) = pyCharLower c := by
  unfold pyCharLower
  by_cases h : 65 ≤ c.toNat ∧ c.toNat ≤ 90
  · rw [if_pos h]
    have htn : (Char.ofNat (c.toNat + 32)).toNat = c.toNat + 32 :=
      toNat_charOfNat _ (by omega)
    rw [if_neg]
    rw [htn]
    omega
  · rw [if_neg h, if_neg h]

/-- Every character of an already-lowered handle is fixed by a second
lowering. -/
theorem pyCharLower_fixed_of_mem (l : List Char) (c : Char)
    (hc : c ∈ l.map pyCharLower) : pyCharLower c = c := by
  obtain ⟨d, _, rfl⟩ := List.mem_map.mp hc
  exact pyCharLower_idem d

theorem dropWhile_idem {α : Type} (p : α → Bool) (l : List α) :
    List.dropWhile p (List.dropWhile p l) = List.dropWhile p l := by
  induction l with
  | nil => rfl
  | cons c cs ih =>
    by_cases h : p c
    · simp [List.dropWhile, h, ih]
    · simp [List.dropWhile, h]

/-- `pyLower` is idempotent. -/
theorem pyLower_idem (s : String) : pyLower (pyLower s) = pyLower s := by
  unfold pyLower
  apply congrArg
  rw [List.map_map]
  exact List.map_congr_left fun a _ => pyCharLower_idem a

/-- Handle normalization is idempotent: a normalized handle is left
unchanged by a second normalization. -/
theorem normalizeHandle_idem (s : String) :
    normalizeHandle (normalizeHandle s) = normalizeHandle s := by
  unfold normalizeHandle pyLstripAt pyLower
  apply congrArg
  generalize s.data = l
  have hfix : List.map pyCharLower
        (List.dropWhile (fun c => decide (c = '@')) (List.map pyCharLower l))
      = List.dropWhile (fun c => decide (c = '@')) (List.map pyCharLower l) := by
    have hsub : ((l.map pyCharLower).dropWhile (fun c => decide (c = '@'))).Sublist
        (l.map pyCharLower) := List.dropWhile_sublist _
    rw [List.map_congr_left, List.map_id]
    intro a ha
    exact pyCharLower_fixed_of_mem l a (hsub.mem ha)
  rw [hfix, dropWhile_idem]

theorem upsertUsername_idem (u : String) (t : List String) :
    upsertUsername u (upsertUsername u t) = upsertUsername u t := by
  unfold upsertUsername
  by_cases h : u ∈ t
  · simp [h]
  · simp [h]

theorem mem_upsertUsername (u v : String) (t : List String) :
    v ∈ upsertUsername u t ↔ v ∈ t ∨ v = u := by
  unfold upsertUsername
  by_cases h : u ∈ t
  · simp only [if_pos h]
    constructor
    · exact Or.inl
    · rintro (hv | rfl)
      · exact hv
      · exact h
  · simp [if_neg h]

theorem mem_deleteUsername (u v : String) (t : List String) :
    v ∈ deleteUsername u t ↔ v ∈ t ∧ v ≠ u := by
  unfold deleteUsername
  simp [List.mem_filter]

theorem normalized_upsert {t : List String} {w : String}
    (h : ∀ x ∈ t, normalizeHandle x = x) (hw : normalizeHandle w = w) :
    ∀ x ∈ upsertUsername w t, normalizeHandle x = x := by
  intro x hx
  rcases (mem_upsertUsername w x t).mp hx with hxt | rfl
  · exact h x hxt
  · exact hw

theorem normalized_delete {t : List String} {w : String}
    (h : ∀ x ∈ t, normalizeHandle x = x) :
    ∀ x ∈ deleteUsername w t, normalizeHandle x = x := by
  intro x hx
  exact h x ((mem_deleteUsername w x t).mp hx).1

theorem deduplicate_tweets_eq_filter (db : String → Option Tweet)
    (tweets : List Tweet) :
    deduplicate_tweets db tweets = tweets.filter (dedupKeeps db) := by
  induction tweets with
  | nil => rfl
  | cons t ts ih =>
    rw [List.filter_cons]
    unfold deduplicate_tweets
    cases h : db t.tweet_id with
    | none =>
      have hk : dedupKeeps db t = true := by unfold dedupKeeps; rw [h]
      simp [hk, ih]
    | some existing =>
      by_cases hs : existing.filter_score.isSome
      · have hk : dedupKeeps db t = false := by unfold dedupKeeps; rw [h]; simp [hs]
        simp [hk, hs, ih]
      · have hk : dedupKeeps db t = true := by unfold dedupKeeps; rw [h]; simp [hs]
        simp [hk, hs, ih]

theorem dedupKeeps_iff (db : String → Option Tweet) (t : Tweet) :
    dedupKeeps db t = true ↔
      (db t.tweet_id = none ∨
        ∃ r, db t.tweet_id = some r ∧ r.filter_score = none) := by
  unfold dedupKeeps
  cases h : db t.tweet_id with
  | none => simp
  | some existing =>
    cases hs : existing.filter_score with
    | none => simp [hs]
    | some sc => simp [hs]

theorem filter_tweets_apply_eq (threshold : Int) (scores : List ScoreRec)
    (tweets : List Tweet) :
    filter_tweets_apply threshold scores tweets =
      (tweets.map (annotateTweet threshold scores),
       (tweets.map (annotateTweet threshold scores)).filter (·.filtered)) := by
  induction tweets with
  | nil => rfl
  | cons t ts ih =>
    rw [List.map_cons, List.filter_cons]
    unfold filter_tweets_apply
    cases h : scoreMapLookup scores t.tweet_id with
    | some s =>
      have hann : annotateTweet threshold scores t =
          { t with filter_score := some s.score, filter_reason := some s.reason,
                   filtered := decide (s.score ≥ threshold) } := by
        unfold annotateTweet; rw [h]
      by_cases hf : decide (s.score ≥ threshold) = true
      · simp [hann, ih, h, hf]
      · simp [hann, ih, h, hf]
    | none =>
      have hann : annotateTweet threshold scores t =
          { t with filter_score := some 0,
                   filter_reason := some "Not scored by Claude", filtered := false } := by
        unfold annotateTweet; rw [h]
      simp [hann, ih, h]

theorem tieredDecision_fst_eq (favT defT mutT : Int) (favs muted : List String)
    (scored : List Tweet) :
    (tieredDecision favT defT mutT favs muted scored).1 =
      (scored.map fun t =>
        { t with filtered := decide (t.filter_score.getD 0 ≥
            tierThreshold favT defT mutT favs muted t.author_username) }).filter
        (·.filtered) := by
  induction scored with
  | nil => rfl
  | cons t ts ih =>
    unfold tieredDecision
    simp only [List.map_cons, List.filter]
    by_cases hp : decide (t.filter_score.getD 0 ≥
        tierThreshold favT defT mutT favs muted t.author_username) = true
    · simp only [tierThreshold] at hp
      simp [tierThreshold, hp, ih]
    · simp only [tierThreshold] at hp
      simp [tierThreshold, hp, ih]

theorem voteWeight_nonneg (t : Tweet) : 0 ≤ voteWeight t := by
  unfold voteWeight
  split <;> norm_num

theorem weightedUp_nonneg (rows : List FeedbackJoinRow) (author : String) :
    0 ≤ weightedUp rows author := by
  unfold weightedUp
  apply List.sum_nonneg
  intro x hx
  obtain ⟨r, _, hr⟩ := List.mem_filterMap.mp hx
  obtain ⟨m, _, hm⟩ := Option.bind_eq_some.mp hr
  split at hm
  · exact (Option.some.inj hm) ▸ voteWeight_nonneg m
  · exact Option.noConfusion hm

theorem weightedDown_nonneg (rows : List FeedbackJoinRow) (author : String) :
    0 ≤ weightedDown rows author := by
  unfold weightedDown
  apply List.sum_nonneg
  intro x hx
  obtain ⟨r, _, hr⟩ := List.mem_filterMap.mp hx
  obtain ⟨m, _, hm⟩ := Option.bind_eq_some.mp hr
  split at hm
  · exact (Option.some.inj hm) ▸ voteWeight_nonneg m
  · exact Option.noConfusion hm

theorem reputationScore_bounds {wu wd : ℚ} (hwu : 0 ≤ wu) (hwd : 0 ≤ wd) :
    0 ≤ reputationScore wu wd ∧ reputationScore wu wd ≤ 1 := by
  unfold reputationScore
  by_cases h : wu + wd = 0
  · simp [h]
  · have hpos : 0 < wu + wd := lt_of_le_of_ne (by positivity) (Ne.symm h)
    rw [if_neg h]
    constructor
    · exact div_nonneg hwu (le_of_lt hpos)
    · rw [div_le_one hpos]
      exact le_add_of_nonneg_right hwd

theorem dictGet_dictSet_self {β : Type} (d : List (String × β)) (k : String) (v : β) :
    dictGet (dictSet d k v) k = some v := by
  unfold dictGet dictSet
  by_cases h : (d.find? fun kv => kv.1 == k).isSome
  · rw [if_pos h]
    induction d with
    | nil => simp at h
    | cons kv rest ih =>
      by_cases hk : kv.1 == k
      · simp [List.find?, hk]
      · rw [List.find?_cons_of_neg _ (by simpa using hk)] at h
        simp only [List.map_cons, hk, if_false]
        rw [List.find?_cons_of_neg _ (by simpa using hk)]
        exact ih h
  · rw [if_neg h]
    induction d with
    | nil => simp [List.find?]
    | cons kv rest ih =>
      by_cases hk : kv.1 == k
      · exfalso
        apply h
        simp [List.find?, hk]
      · rw [List.find?_cons_of_neg _ (by simpa using hk)] at h
        simp only [List.cons_append]
        rw [List.find?_cons_of_neg _ (by simpa using hk)]
        exact ih h

theorem dictGet_dictPop_self {β : Type} (d : List (String × β)) (k : String) :
    dictGet (dictPop d k) k = none := by
  unfold dictGet dictPop
  induction d with
  | nil => simp [List.find?]
  | cons kv rest ih =>
    by_cases hk : kv.1 = k
    · simp only [List.filter, hk]
      simp only [ne_eq, not_true_eq_false, decide_False]
      exact ih
    · simp only [List.filter]
      rw [decide_eq_true (by exact hk : kv.1 ≠ k)]
      rw [List.find?_cons_of_neg _ (by simpa using hk)]
      exact ih

theorem dictGet_dictPop_ne {β : Type} (d : List (String × β)) (k k2 : String)
    (h : k2 ≠ k) : dictGet (dictPop d k) k2 = dictGet d k2 := by
  unfold dictGet dictPop
  induction d with
  | nil => simp
  | cons kv rest ih =>
    by_cases hk : kv.1 = k
    · rw [List.find?_cons_of_neg _ (by simp [hk, Ne.symm h])]
      simp only [List.filter]
      rw [decide_eq_false (by simpa using hk : ¬kv.1 ≠ k)]
      exact ih
    · simp only [List.filter]
      rw [decide_eq_true (by exact hk : kv.1 ≠ k)]
      by_cases hk2 : kv.1 == k2
      · rw [List.find?_cons_of_pos _ (by simpa using hk2),
          List.find?_cons_of_pos _ (by simpa using hk2)]
      · rw [List.find?_cons_of_neg _ (by simpa using hk2),
          List.find?_cons_of_neg _ (by simpa using hk2)]
        exact ih

theorem keys_dictSet {β : Type} (d : List (String × β)) (k : String) (v : β) :
    (dictSet d k v).map (·.1) = d.map (·.1) ∨
    (dictSet d k v).map (·.1) = d.map (·.1) ++ [k] := by
  unfold dictSet
  by_cases h : (d.find? fun kv => kv.1 == k).isSome
  · left
    rw [if_pos h, List.map_map]
    apply List.map_congr_left
    intro kv _
    by_cases hk : kv.1 == k
    · simp only [Function.comp, hk, if_true]
      exact (beq_iff_eq.mp hk).symm
    · simp [Function.comp, hk]
  · right
    rw [if_neg h]
    simp

theorem nodup_keys_dictSet {β : Type} (d : List (String × β)) (k : String) (v : β)
    (h : (d.map (·.1)).Nodup) : ((dictSet d k v).map (·.1)).Nodup := by
  rcases keys_dictSet d k v with heq | heq
  · rw [heq]; exact h
  · rw [heq]
    unfold dictSet at heq
    by_cases hf : (d.find? fun kv => kv.1 == k).isSome
    · rw [if_pos hf, List.map_map] at heq
      exfalso
      have hlen := congrArg List.length heq
      simp at hlen
    · have hk : k ∉ d.map (·.1) := by
        intro hmem
        obtain ⟨kv, hkv, hfst⟩ := List.mem_map.mp hmem
        rw [List.find?_isSome] at hf
        exact hf ⟨kv, hkv, by simp [hfst]⟩
      simp [List.nodup_append, h, hk]

theorem nodup_keys_filter {β : Type} (d : List (String × β)) (p : String × β → Bool)
    (h : (d.map (·.1)).Nodup) : ((d.filter p).map (·.1)).Nodup := by
  have : (d.filter p).Sublist d := List.filter_sublist d
  exact ((this.map (·.1)).nodup h)

/-! ## Claim theorems -/

/-- C1: after the scorer's response is parsed, every tweet whose id is
absent from the score set is marked score 0 / "Not scored by Claude" /
`filtered = false`; every tweet whose id is present carries its parsed
score with `filtered = (score ≥ threshold)`; and the list
`filter_tweets` returns is exactly the enriched tweets with
`filtered = true`. -/
theorem filter_tweets_spec (threshold : Int) (scores : List ScoreRec)
    (tweets : List Tweet) :
    (filter_tweets_apply threshold scores tweets).1 =
      tweets.map (annotateTweet threshold scores) ∧
    (∀ t ∈ tweets, scoreMapLookup scores t.tweet_id = none →
      annotateTweet threshold scores t =
        { t with filter_score := some 0,
                 filter_reason := some "Not scored by Claude", filtered := false }) ∧
    (∀ t ∈ tweets, ∀ sc, scoreMapLookup scores t.tweet_id = some sc →
      annotateTweet threshold scores t =
        { t with filter_score := some sc.score, filter_reason := some sc.reason,
                 filtered := decide (sc.score ≥ threshold) }) ∧
    (filter_tweets_apply threshold scores tweets).2 =
      ((filter_tweets_apply threshold scores tweets).1).filter (·.filtered) := by
  have heq := filter_tweets_apply_eq threshold scores tweets
  refine ⟨by rw [heq], ?_, ?_, by rw [heq]⟩
  · intro t _ h
    unfold annotateTweet
    rw [h]
  · intro t _ sc h
    unfold annotateTweet
    rw [h]

/-- Witness for C1 at a concrete batch: with one scored and one unscored
tweet at threshold 70, the unscored tweet is annotated score 0 / not
scored / failing, the scored one carries its parsed score and passes. -/
theorem filter_tweets_spec_witness :
    annotateTweet 70 [ScoreRec.mk "1" 85 "Good"] ⟨"2", "b", "y", false, none, none, false⟩ =
      ⟨"2", "b", "y", false, some 0, some "Not scored by Claude", false⟩ ∧
    annotateTweet 70 [ScoreRec.mk "1" 85 "Good"] ⟨"1", "a", "x", false, none, none, false⟩ =
      ⟨"1", "a", "x", false, some 85, some "Good", true⟩ :=
  ⟨(filter_tweets_spec 70 [ScoreRec.mk "1" 85 "Good"]
      [⟨"1", "a", "x", false, none, none, false⟩, ⟨"2", "b", "y", false, none, none, false⟩]).2.1
      ⟨"2", "b", "y", false, none, none, false⟩ (by simp) (by decide),
   (filter_tweets_spec 70 [ScoreRec.mk "1" 85 "Good"]
      [⟨"1", "a", "x", false, none, none, false⟩, ⟨"2", "b", "y", false, none, none, false⟩]).2.2.1
      ⟨"1", "a", "x", false, none, none, false⟩ (by simp) (ScoreRec.mk "1" 85 "Good") (by decide)⟩

/-- The three-item scenario batch of the spec: three tweets scored 65
authored by a favorite, a default and a muted author. -/
def scenarioTweets : List Tweet :=
  [⟨"1", "fav_user", "t1", false, some 65, none, false⟩,
   ⟨"2", "plain_user", "t2", false, some 65, none, false⟩,
   ⟨"3", "muted_user", "t3", false, some 65, none, false⟩]

/-- C2: the tiered decision pass keeps exactly the items whose score
reaches their author's tier threshold; on the scenario batch (thresholds
favorite 50 / default 70 / muted 85, all scores 65) only the
favorite-authored item passes, the tier breakdown is one per tier, and
the passed count is 1. -/
theorem tiered_decision_spec (favT defT mutT : Int) (favs muted : List String)
    (scored : List Tweet) :
    ((tieredDecision favT defT mutT favs muted scored).1 =
      (scored.map fun t =>
        { t with filtered := decide (t.filter_score.getD 0 ≥
            tierThreshold favT defT mutT favs muted t.author_username) }).filter
        (·.filtered)) ∧
    (tieredDecision 50 70 85 ["fav_user"] ["muted_user"] scenarioTweets).1.map
        (·.tweet_id) = ["1"] ∧
    (tieredDecision 50 70 85 ["fav_user"] ["muted_user"] scenarioTweets).2 =
      ⟨1, 1, 1⟩ ∧
    (tieredDecision 50 70 85 ["fav_user"] ["muted_user"] scenarioTweets).1.length = 1 := by
  refine ⟨tieredDecision_fst_eq favT defT mutT favs muted scored, ?_, ?_, ?_⟩
  · decide
  · decide
  · decide

/-- C4: the dedup filter keeps a tweet iff the store has no record for
its id or the stored record is unscored; over a batch whose every item
already has a scored record, it returns the empty list. -/
theorem deduplicate_tweets_spec (db : String → Option Tweet) (tweets : List Tweet) :
    (∀ t, t ∈ deduplicate_tweets db tweets ↔
      t ∈ tweets ∧ (db t.tweet_id = none ∨
        ∃ r, db t.tweet_id = some r ∧ r.filter_score = none)) ∧
    ((∀ t ∈ tweets, ∃ r, db t.tweet_id = some r ∧ r.filter_score.isSome) →
      deduplicate_tweets db tweets = []) := by
  constructor
  · intro t
    rw [deduplicate_tweets_eq_filter, List.mem_filter, dedupKeeps_iff]
  · intro h
    rw [deduplicate_tweets_eq_filter]
    rw [List.filter_eq_nil_iff]
    intro t ht
    obtain ⟨r, hr, hs⟩ := h t ht
    rw [dedupKeeps_iff]
    rintro (hnone | ⟨r2, hr2, hs2⟩)
    · rw [hnone] at hr; exact Option.noConfusion hr
    · rw [hr2] at hr
      obtain rfl := Option.some.inj hr
      rw [hs2] at hs
      exact Bool.noConfusion hs

/-- Witness for C4 at a concrete store: a batch whose single tweet has a
scored record dedups to the empty list, and by the kept-iff
characterization an unscored record is kept. -/
theorem deduplicate_tweets_spec_witness :
    deduplicate_tweets
      (fun id => if id = "1" then
          some ⟨"1", "a", "x", false, some 80, some "ok", true⟩ else none)
      [⟨"1", "a", "x", false, none, none, false⟩] = [] :=
  (deduplicate_tweets_spec
      (fun id => if id = "1" then
          some ⟨"1", "a", "x", false, some 80, some "ok", true⟩ else none)
      [⟨"1", "a", "x", false, none, none, false⟩]).2
    (by
      intro t ht
      simp only [List.mem_singleton] at ht
      subst ht
      exact ⟨⟨"1", "a", "x", false, some 80, some "ok", true⟩, by decide, by decide⟩)

/-- C9: the A/B shadow block never changes the outcome of the tiered
decision pass (for any challenger-call and store-write outcome, the
passed set and tier breakdown equal the plain tiered decision), and when
the block's body raises, the message is recorded as a non-fatal
`ab_test_error` note, the fatal error list is untouched, and the run
still produces its decision statistics. -/
theorem ab_shadow_isolated (cfg : ABConfig) (favT defT mutT : Int)
    (favs muted : List String) (scored tff : List Tweet)
    (ch : Except String (List ScoreRec)) (sv : Except String Unit)
    (stats : RunStats) :
    ((shadowThenDecide cfg favT defT mutT favs muted scored tff ch sv stats).2 =
      tieredDecision favT defT mutT favs muted scored) ∧
    (∀ e, abTry cfg tff ch sv = Except.error e → cfg.enabled = true →
      (shadowThenDecide cfg favT defT mutT favs muted scored tff ch sv stats).1.ab_test_error
        = some e ∧
      (shadowThenDecide cfg favT defT mutT favs muted scored tff ch sv stats).1.errors
        = stats.errors ∧
      (shadowThenDecide cfg favT defT mutT favs muted scored tff ch sv stats).1.filtered
        = (tieredDecision favT defT mutT favs muted scored).1.length) := by
  constructor
  · unfold shadowThenDecide
    simp
  · intro e herr hen
    unfold shadowThenDecide abShadowStage
    rw [hen, herr]
    simp

/-- Witness for C9 at a concrete run: an enabled experiment whose
challenger call raises "API down" records the note, keeps the error list
empty, and the passed set is still that of the tiered decision. -/
theorem ab_shadow_isolated_witness :
    (shadowThenDecide ⟨true, some "exp1", some "V5"⟩ 50 70 85 [] []
        scenarioTweets scenarioTweets (Except.error "API down") (Except.ok ()) {}).1.ab_test_error
      = some "API down" ∧
    (shadowThenDecide ⟨true, some "exp1", some "V5"⟩ 50 70 85 [] []
        scenarioTweets scenarioTweets (Except.error "API down") (Except.ok ()) {}).2 =
      tieredDecision 50 70 85 [] [] scenarioTweets :=
  ⟨((ab_shadow_isolated ⟨true, some "exp1", some "V5"⟩ 50 70 85 [] []
      scenarioTweets scenarioTweets (Except.error "API down") (Except.ok ()) {}).2
      "API down" rfl rfl).1,
   (ab_shadow_isolated ⟨true, some "exp1", some "V5"⟩ 50 70 85 [] []
      scenarioTweets scenarioTweets (Except.error "API down") (Except.ok ()) {}).1⟩

/-- C8: `toggle_favorite` applied twice to an author who is not muted
returns "favorited" both times and leaves the store as if applied once;
applied to a muted author it returns "unmuted", removes the author from
the muted set, and leaves the favorite set untouched. -/
theorem toggle_favorite_toggle_props (u : String) (s : TierState) :
    (normalizeHandle u ∉ s.muted_authors →
      (toggle_favorite u s).1 = "favorited" ∧
      (toggle_favorite u (toggle_favorite u s).2).1 = "favorited" ∧
      (toggle_favorite u (toggle_favorite u s).2).2 = (toggle_favorite u s).2) ∧
    (normalizeHandle u ∈ s.muted_authors →
      (toggle_favorite u s).1 = "unmuted" ∧
      normalizeHandle u ∉ (toggle_favorite u s).2.muted_authors ∧
      (toggle_favorite u s).2.favorite_authors = s.favorite_authors) := by
  have hnn := normalizeHandle_idem u
  constructor
  · intro hm
    have hmut : is_muted_author (normalizeHandle u) s = false := by
      simp [is_muted_author, hnn, hm]
    have h1 : toggle_favorite u s =
        ("favorited", save_favorite_author (normalizeHandle u) s) := by
      simp [toggle_favorite, hmut]
    have hsnd : (toggle_favorite u s).2 = save_favorite_author (normalizeHandle u) s := by
      rw [h1]
    have hmut2 : is_muted_author (normalizeHandle u)
        (save_favorite_author (normalizeHandle u) s) = false := by
      simp [is_muted_author, save_favorite_author, hnn, hm]
    have h2 : toggle_favorite u (save_favorite_author (normalizeHandle u) s) =
        ("favorited", save_favorite_author (normalizeHandle u)
          (save_favorite_author (normalizeHandle u) s)) := by
      simp [toggle_favorite, hmut2]
    refine ⟨by rw [h1], by rw [hsnd, h2], ?_⟩
    rw [hsnd, h2]
    show save_favorite_author (normalizeHandle u)
        (save_favorite_author (normalizeHandle u) s)
      = save_favorite_author (normalizeHandle u) s
    simp only [save_favorite_author, hnn]
    rw [upsertUsername_idem]
  · intro hm
    have hmut : is_muted_author (normalizeHandle u) s = true := by
      simp [is_muted_author, hnn, hm]
    have h1 : toggle_favorite u s =
        ("unmuted", remove_muted_author (normalizeHandle u) s) := by
      simp [toggle_favorite, hmut]
    refine ⟨by rw [h1], ?_, by rw [h1]; rfl⟩
    rw [h1]
    show normalizeHandle u ∉ (remove_muted_author (normalizeHandle u) s).muted_authors
    intro hcontra
    simp only [remove_muted_author, hnn] at hcontra
    exact ((mem_deleteUsername _ _ _).mp hcontra).2 rfl

/-- C10: every tier-set operation normalizes its author-handle argument
(lowercase, leading `@` stripped) before touching the store, so the
operations agree on any two handles with the same normalization, and a
store holding only normalized handles still holds only normalized
handles after any of them. -/
theorem tier_ops_normalize (u v : String) (s : TierState) :
    (normalizeHandle u = normalizeHandle v →
      save_favorite_author u s = save_favorite_author v s ∧
      remove_favorite_author u s = remove_favorite_author v s ∧
      is_favorite_author u s = is_favorite_author v s ∧
      save_muted_author u s = save_muted_author v s ∧
      remove_muted_author u s = remove_muted_author v s ∧
      is_muted_author u s = is_muted_author v s ∧
      toggle_favorite u s = toggle_favorite v s ∧
      toggle_mute u s = toggle_mute v s) ∧
    (TierStateNormalized s →
      TierStateNormalized (save_favorite_author u s) ∧
      TierStateNormalized (remove_favorite_author u s) ∧
      TierStateNormalized (save_muted_author u s) ∧
      TierStateNormalized (remove_muted_author u s) ∧
      TierStateNormalized (toggle_favorite u s).2 ∧
      TierStateNormalized (toggle_mute u s).2) := by
  constructor
  · intro huv
    refine ⟨?_, ?_, ?_, ?_, ?_, ?_, ?_, ?_⟩ <;>
      simp only [save_favorite_author, remove_favorite_author, is_favorite_author,
        save_muted_author, remove_muted_author, is_muted_author,
        toggle_favorite, toggle_mute, huv]
  · intro hs
    obtain ⟨hf, hm⟩ := hs
    have hnu := normalizeHandle_idem u
    have hsfav : TierStateNormalized (save_favorite_author u s) :=
      ⟨normalized_upsert hf hnu, hm⟩
    have hrfav : TierStateNormalized (remove_favorite_author u s) :=
      ⟨normalized_delete hf, hm⟩
    have hsmut : TierStateNormalized (save_muted_author u s) :=
      ⟨hf, normalized_upsert hm hnu⟩
    have hrmut : TierStateNormalized (remove_muted_author u s) :=
      ⟨hf, normalized_delete hm⟩
    refine ⟨hsfav, hrfav, hsmut, hrmut, ?_, ?_⟩
    · unfold toggle_favorite
      by_cases h : is_muted_author (normalizeHandle u) s
      · simp only [h, if_true]
        exact ⟨hf, normalized_delete hm⟩
      · simp only [h, if_false]
        exact ⟨normalized_upsert hf (by rw [hnu, hnu]), hm⟩
    · unfold toggle_mute
      by_cases h : is_favorite_author (normalizeHandle u) s
      · simp only [h, if_true]
        exact ⟨normalized_delete hf, hm⟩
      · simp only [h, if_false]
        exact ⟨hf, normalized_upsert hm (by rw [hnu, hnu])⟩

/-- Witness for C8 at concrete inputs: a never-muted author is reported
"favorited", a muted author "unmuted". -/
theorem toggle_favorite_toggle_props_witness :
    (toggle_favorite "NewAuthor" ⟨[], []⟩).1 = "favorited" ∧
    (toggle_favorite "@Quiet" ⟨[], ["quiet"]⟩).1 = "unmuted" :=
  ⟨((toggle_favorite_toggle_props "NewAuthor" ⟨[], []⟩).1 (by decide)).1,
   ((toggle_favorite_toggle_props "@Quiet" ⟨[], ["quiet"]⟩).2 (by decide)).1⟩

/-- C5: every entry of the author-stats view carries the weighted
up/down masses of its author (originals at weight 1, reshares at 1/2),
its reputation score is weighted-up over the weighted total (0 when the
total is 0), and the score always lies in [0, 1]. -/
theorem get_author_stats_spec (rows : List FeedbackJoinRow) :
    ∀ st ∈ get_author_stats rows,
      st.weighted_up = weightedUp rows st.author_username ∧
      st.weighted_down = weightedDown rows st.author_username ∧
      st.weighted_score =
        (if st.weighted_up + st.weighted_down = 0 then 0
         else st.weighted_up / (st.weighted_up + st.weighted_down)) ∧
      0 ≤ st.weighted_score ∧ st.weighted_score ≤ 1 := by
  intro st hst
  unfold get_author_stats at hst
  have hperm := List.perm_insertionSort
    (fun x y : AuthorStat => x.weighted_score ≥ y.weighted_score)
    (((rows.filterMap fun r => r.tweet.map (·.author_username)).dedup).map fun a =>
      AuthorStat.mk a (weightedUp rows a) (weightedDown rows a)
        (reputationScore (weightedUp rows a) (weightedDown rows a)))
  have hst2 := hperm.mem_iff.mp hst
  obtain ⟨a, _, rfl⟩ := List.mem_map.mp hst2
  have hb := reputationScore_bounds (weightedUp_nonneg rows a) (weightedDown_nonneg rows a)
  exact ⟨rfl, rfl, by unfold reputationScore; rfl, hb.1, hb.2⟩

/-- Witness for C5 at the spec's scenario history: one weight-1 up-vote
and one weight-1/2 down-vote on author "a" give reputation
1/(3/2) = 2/3, inside [0, 1]. -/
theorem get_author_stats_spec_witness :
    0 ≤ (AuthorStat.mk "a" 1 (1/2) (2/3)).weighted_score ∧
    (AuthorStat.mk "a" 1 (1/2) (2/3)).weighted_score ≤ 1 ∧
    (AuthorStat.mk "a" 1 (1/2) (2/3)).weighted_score =
      (AuthorStat.mk "a" 1 (1/2) (2/3)).weighted_up /
        ((AuthorStat.mk "a" 1 (1/2) (2/3)).weighted_up +
         (AuthorStat.mk "a" 1 (1/2) (2/3)).weighted_down) := by
  have hmem : (AuthorStat.mk "a" 1 (1/2) (2/3)) ∈ get_author_stats
      [⟨"up", some ⟨"t1", "a", "x", false, some 80, none, false⟩⟩,
       ⟨"down", some ⟨"t2", "a", "y", true, some 30, none, false⟩⟩] := by
    unfold get_author_stats
    apply (List.perm_insertionSort _ _).mem_iff.mpr
    have hd : (("down" : String) = "up") = False := by simp
    have hu : (("up" : String) = "down") = False := by simp
    norm_num [List.filterMap, List.dedup, weightedUp, weightedDown,
      reputationScore, voteWeight, hd, hu]
  have h := get_author_stats_spec _ _ hmem
  refine ⟨h.2.2.2.1, h.2.2.2.2, ?_⟩
  rw [h.2.2.1, if_neg (by norm_num)]

/-- C6: once the delayed commit for a pending vote has fired, an undo
for that item reports too-late, changes nothing, and the recorded vote
remains; an undo that arrives while the vote is still pending cancels
the scheduled task, removes the pending entry, records no vote, and the
cancelled task can no longer commit anything. -/
theorem undo_semantics (s : BotState) (e : PendingEntry) (cl : TaskClosure) :
    (e.taskId ∉ s.cancelled →
      (s.tasks.find? fun kv => kv.1 == e.taskId) = some (e.taskId, cl) →
      dictGet s.pending cl.tweetId = some e →
      (botStep s (BotEvent.fire e.taskId)).2 = BotOutput.committed ∧
      VoteRec.mk cl.tweetId cl.vote cl.reason cl.messageId ∈
        (botStep s (BotEvent.fire e.taskId)).1.saved ∧
      (botStep (botStep s (BotEvent.fire e.taskId)).1
          (BotEvent.undo cl.tweetId)).2 = BotOutput.tooLate ∧
      (botStep (botStep s (BotEvent.fire e.taskId)).1
          (BotEvent.undo cl.tweetId)).1 = (botStep s (BotEvent.fire e.taskId)).1) ∧
    (∀ t, dictGet s.pending t = some e →
      (botStep s (BotEvent.undo t)).2 = BotOutput.undone ∧
      dictGet (botStep s (BotEvent.undo t)).1.pending t = none ∧
      e.taskId ∈ (botStep s (BotEvent.undo t)).1.cancelled ∧
      (botStep s (BotEvent.undo t)).1.saved = s.saved ∧
      (botStep (botStep s (BotEvent.undo t)).1 (BotEvent.fire e.taskId)).1.saved
        = s.saved) := by
  constructor
  · intro hcanc htask hpend
    have hfire : botStep s (BotEvent.fire e.taskId) =
        ({ s with
            saved := s.saved ++ [⟨cl.tweetId, cl.vote, cl.reason, cl.messageId⟩],
            pending := dictPop s.pending cl.tweetId }, BotOutput.committed) := by
      simp only [botStep]
      rw [if_neg hcanc, htask]
      simp only [Option.map_some']
      rw [hpend]
      rfl
    have hundoLate :
        botStep (botStep s (BotEvent.fire e.taskId)).1 (BotEvent.undo cl.tweetId) =
          ((botStep s (BotEvent.fire e.taskId)).1, BotOutput.tooLate) := by
      rw [hfire]
      simp only [botStep]
      rw [dictGet_dictPop_self]
    exact ⟨by rw [hfire], by rw [hfire]; simp, by rw [hundoLate], by rw [hundoLate]⟩
  · intro t hpend
    have hundo : botStep s (BotEvent.undo t) =
        ({ s with cancelled := e.taskId :: s.cancelled,
                  pending := dictPop s.pending t }, BotOutput.undone) := by
      simp only [botStep]
      rw [hpend]
    refine ⟨by rw [hundo], by rw [hundo]; exact dictGet_dictPop_self _ _,
      by rw [hundo]; exact List.mem_cons_self _ _, by rw [hundo], ?_⟩
    rw [hundo]
    simp only [botStep]
    rw [if_pos (List.mem_cons_self _ _)]

/-- Witness for C6 at a concrete pending vote: firing the single
scheduled task commits the vote and a later undo is too late; undoing
the same initial state instead cancels and records nothing. -/
theorem undo_semantics_witness :
    (botStep ⟨[("1", ⟨0, 7⟩)], [(0, ⟨"1", "up", "Tech content", 7⟩)], [], [], 1⟩
        (BotEvent.fire 0)).2 = BotOutput.committed ∧
    (botStep ⟨[("1", ⟨0, 7⟩)], [(0, ⟨"1", "up", "Tech content", 7⟩)], [], [], 1⟩
        (BotEvent.undo "1")).2 = BotOutput.undone :=
  ⟨((undo_semantics ⟨[("1", ⟨0, 7⟩)], [(0, ⟨"1", "up", "Tech content", 7⟩)], [], [], 1⟩
      ⟨0, 7⟩ ⟨"1", "up", "Tech content", 7⟩).1 (by decide) (by decide) (by decide)).1,
   ((undo_semantics ⟨[("1", ⟨0, 7⟩)], [(0, ⟨"1", "up", "Tech content", 7⟩)], [], [], 1⟩
      ⟨0, 7⟩ ⟨"1", "up", "Tech content", 7⟩).2 "1" (by decide)).1⟩

/-- C7: selecting a new reason for an item that already has a pending
vote — on the vote-reason path or the like-reason path — cancels the
prior entry's task and replaces the entry with one holding the fresh
task, and every event preserves uniqueness of the pending map's keys
(at most one pending vote per item). -/
theorem pending_supersede (s : BotState) (e : PendingEntry) :
    (∀ tweetId vote reason messageId,
      dictGet s.pending tweetId = some e →
      dictGet (botStep s (BotEvent.reasonSelect tweetId vote reason messageId)).1.pending
          tweetId = some ⟨s.nextTask, messageId⟩ ∧
      e.taskId ∈
        (botStep s (BotEvent.reasonSelect tweetId vote reason messageId)).1.cancelled) ∧
    (∀ tweetId reason messageId,
      dictGet s.pending tweetId = some e →
      dictGet (botStep s (BotEvent.likeReasonSelect tweetId reason messageId)).1.pending
          tweetId = some ⟨s.nextTask, messageId⟩ ∧
      e.taskId ∈
        (botStep s (BotEvent.likeReasonSelect tweetId reason messageId)).1.cancelled) ∧
    (∀ ev, (s.pending.map (·.1)).Nodup →
      ((botStep s ev).1.pending.map (·.1)).Nodup) := by
  refine ⟨?_, ?_, ?_⟩
  · intro tweetId vote reason messageId hpend
    simp only [botStep, scheduleVote]
    rw [hpend]
    exact ⟨dictGet_dictSet_self _ _ _, List.mem_cons_self _ _⟩
  · intro tweetId reason messageId hpend
    simp only [botStep, scheduleVote]
    rw [hpend]
    exact ⟨dictGet_dictSet_self _ _ _, List.mem_cons_self _ _⟩
  · intro ev hnodup
    cases ev with
    | reasonSelect tweetId vote reason messageId =>
        simp only [botStep, scheduleVote]
        exact nodup_keys_dictSet _ _ _ hnodup
    | likeReasonSelect tweetId reason messageId =>
        simp only [botStep, scheduleVote]
        exact nodup_keys_dictSet _ _ _ hnodup
    | undo tweetId =>
        simp only [botStep]
        cases h : dictGet s.pending tweetId with
        | none => exact hnodup
        | some e2 => exact nodup_keys_filter _ _ hnodup
    | fire taskId =>
        simp only [botStep]
        by_cases hc : taskId ∈ s.cancelled
        · rw [if_pos hc]; exact hnodup
        · rw [if_neg hc]
          cases h : (s.tasks.find? fun kv => kv.1 == taskId).map (·.2) with
          | none => exact hnodup
          | some cl =>
            split
            · exact hnodup
            · split
              · exact nodup_keys_filter _ _ hnodup
              · exact hnodup

/-- Witness for C7 at a concrete state: re-selecting a reason for an
item with a pending vote installs the fresh task and cancels task 0. -/
theorem pending_supersede_witness :
    dictGet (botStep ⟨[("1", ⟨0, 7⟩)], [(0, ⟨"1", "up", "Tech content", 7⟩)], [], [], 1⟩
        (BotEvent.reasonSelect "1" "down" "Low quality" 7)).1.pending "1" = some ⟨1, 7⟩ ∧
    0 ∈ (botStep ⟨[("1", ⟨0, 7⟩)], [(0, ⟨"1", "up", "Tech content", 7⟩)], [], [], 1⟩
        (BotEvent.reasonSelect "1" "down" "Low quality" 7)).1.cancelled :=
  (pending_supersede ⟨[("1", ⟨0, 7⟩)], [(0, ⟨"1", "up", "Tech content", 7⟩)], [], [], 1⟩
      ⟨0, 7⟩).1 "1" "down" "Low quality" 7 (by decide)

/-- C3 (code bug evaluation): on the raw response `"5"` — a valid JSON
document that decodes to the integer 5 — the parse does not degrade to
the fallback scan or an empty result: iterating the decoded value raises
`TypeError`, which the surrounding `try` (catching only
`json.JSONDecodeError`) lets escape. -/
theorem parse_response_raises_on_nonlist_json :
    parse_response loadsFive "5" = Except.error PyErr.typeError := by
  rfl

/-- Witness for C10 at concrete inputs: `"@Alice"` and `"ALICE"`
normalize alike, so the membership tests agree, and an upsert into an
empty store writes only normalized handles. -/
theorem tier_ops_normalize_witness :
    is_favorite_author "@Alice" ⟨[], []⟩ = is_favorite_author "ALICE" ⟨[], []⟩ ∧
    TierStateNormalized (save_favorite_author "@Alice" ⟨[], []⟩) :=
  ⟨((tier_ops_normalize "@Alice" "ALICE" ⟨[], []⟩).1 (by decide)).2.2.1,
   ((tier_ops_normalize "@Alice" "ALICE" ⟨[], []⟩).2
      (by simp [TierStateNormalized])).1⟩

end TwitterCurator
